import Mathlib

/-!
Shallow embedding of the gameplay core of `src/main.rs`, a physics-driven
falling-block game.  Modelling conventions:

* `f32` values are modelled as rationals (`ℚ`).  Every number the game core
  computes is obtained from small integers by `+`, `-`, `*` with halves, so
  the rational model tracks the source exactly on all inputs of interest.
* Entity handles (`Entity`) are modelled as natural numbers; fresh handles
  are supplied by the caller (`nextId`) in the order the engine would mint
  them.
* ECS queries become explicit data: a query over world blocks is a list of
  per-block views, and a component lookup is a `find?` / partial map, with a
  failed lookup modelling a despawned entity.
* Randomness is injected: the randomly chosen `TetrominoKind` is a
  parameter of `spawn_tetromino`.
-/

namespace RealisticTetris

/-- Pixel size of a block, the `BLOCK_PX_SIZE` constant. -/
def BLOCK_PX_SIZE : ℚ := 30

/-- Lateral movement force constant `MOVEMENT_FORCE`. -/
def MOVEMENT_FORCE : ℚ := 20

/-- Torque constant `TORQUE`. -/
def TORQUE : ℚ := 20

/-- Mirror of `struct Stats` (counters are `i32`; overflow is irrelevant at
the scales the game reaches, so they are modelled as `Int`). -/
structure Stats where
  generated_blocks : Int
  cleared_blocks : Int
  lost_blocks : Int
  lost_tetromino : Bool
deriving Repr, DecidableEq

/-- Mirror of `Stats::health`. -/
def Stats.health (s : Stats) : ℚ :=
  if s.lost_tetromino then 0
  else if s.cleared_blocks = 0 then
    if s.lost_blocks > 0 then 0 else 1
  else 1 - (s.lost_blocks : ℚ) / (s.cleared_blocks : ℚ)

/-- Mirror of `enum TetrominoKind`. -/
inductive TetrominoKind where
  | I | O | T | J | L | S | Z
deriving Repr, DecidableEq, Fintype

/-- Mirror of `struct TetrominoLayout`; the `[(i32, i32); 4]` coordinate
array becomes a list whose length-4 invariant is proved below. -/
structure TetrominoLayout where
  coords : List (Int × Int)
  joints : List (Nat × Nat)
deriving Repr, DecidableEq

/-- Mirror of `TetrominoKind::layout`. -/
def TetrominoKind.layout : TetrominoKind → TetrominoLayout
  | .I => ⟨[(1, 1), (1, 0), (1, -1), (1, -2)], [(0, 1), (1, 2), (2, 3)]⟩
  | .O => ⟨[(0, 0), (1, 0), (1, -1), (0, -1)], [(0, 1), (1, 2), (2, 3), (1, 0)]⟩
  | .T => ⟨[(0, 0), (1, 0), (2, 0), (1, -1)], [(0, 1), (1, 2), (1, 3)]⟩
  | .J => ⟨[(1, 0), (1, -1), (1, -2), (0, -2)], [(0, 1), (1, 2), (2, 3)]⟩
  | .L => ⟨[(1, 0), (1, -1), (1, -2), (2, -2)], [(0, 1), (1, 2), (2, 3)]⟩
  | .S => ⟨[(0, -1), (1, -1), (1, 0), (2, 0)], [(0, 1), (1, 2), (2, 3)]⟩
  | .Z => ⟨[(0, 0), (1, 0), (1, -1), (2, -1)], [(0, 1), (1, 2), (2, 3)]⟩

/-- Mirror of `struct Game` (the render-only fields `tetromino_colors` and
`camera` are omitted; the `HashSet<Entity>` of active blocks becomes a list
of handles, each visited once on iteration). -/
structure Game where
  n_lanes : Nat
  n_rows : Nat
  stats : Stats
  current_tetromino_blocks : List Nat
  current_tetromino_joints : List Nat
deriving Repr, DecidableEq

/-- Mirror of `Game::floor_y`. -/
def Game.floor_y (g : Game) : ℚ := -(g.n_rows : ℚ) * (1 / 2)

/-- Mirror of `Game::left_wall_x`. -/
def Game.left_wall_x (g : Game) : ℚ := -(g.n_lanes : ℚ) * (1 / 2)

/-- Result of spawning one block: its handle and the world-center position
given to its `RigidBodyBundle`. -/
structure SpawnedBlock where
  id : Nat
  x : ℚ
  y : ℚ
deriving Repr, DecidableEq

/-- Mirror of `spawn_block`: the block center is
`(left_wall_x + lane + 0.5, floor_y + row + 0.5)`; the fresh entity handle
is supplied by the caller. -/
def spawn_block (g : Game) (id : Nat) (lane row : Int) : SpawnedBlock :=
  { id := id
    x := g.left_wall_x + (lane : ℚ) + 1 / 2
    y := g.floor_y + (row : ℚ) + 1 / 2 }

/-- Mirror of one spawned `JointBuilderComponent`: the two ball-joint
anchors and the handles of the two jointed blocks. -/
structure SpawnedJoint where
  id : Nat
  anchor1 : ℚ × ℚ
  anchor2 : ℚ × ℚ
  body1 : Nat
  body2 : Nat
deriving Repr, DecidableEq

/-- Outcome of `spawn_tetromino`: the updated game resource plus the block
and joint entities it created. -/
structure SpawnResult where
  game : Game
  blocks : List SpawnedBlock
  joints : List SpawnedJoint
deriving Repr, DecidableEq

/-- Mirror of `spawn_tetromino`.  The randomly drawn kind is the `kind`
parameter; `nextId` supplies fresh entity handles (the four blocks get
`nextId + i`, the joints follow).  Out-of-range layout indices fall back to
`(0, 0)` via `getD`; the catalog theorem below shows every index used is in
range, matching the panic-free behavior of the source. -/
def spawn_tetromino (g : Game) (kind : TetrominoKind) (nextId : Nat) : SpawnResult :=
  let l := kind.layout
  let block_entities : List SpawnedBlock :=
    l.coords.enum.map fun ic =>
      let lane := (g.n_lanes : Int) / 2 - 1 + ic.2.1
      let row := (g.n_rows : Int) - 1 + ic.2.2
      spawn_block g (nextId + ic.1) lane row
  let block_ids := block_entities.map SpawnedBlock.id
  let joint_entities : List SpawnedJoint :=
    l.joints.enum.map fun ij =>
      let x_dir : ℚ := ((l.coords.getD ij.2.2 (0, 0)).1 : ℚ) - ((l.coords.getD ij.2.1 (0, 0)).1 : ℚ)
      let y_dir : ℚ := ((l.coords.getD ij.2.2 (0, 0)).2 : ℚ) - ((l.coords.getD ij.2.1 (0, 0)).2 : ℚ)
      { id := nextId + l.coords.length + ij.1
        anchor1 := (x_dir * (1 / 2), y_dir * (1 / 2))
        anchor2 := (x_dir * (-(1 / 2)), y_dir * (-(1 / 2)))
        body1 := block_ids.getD ij.2.1 0
        body2 := block_ids.getD ij.2.2 0 }
  { game :=
      { g with
        stats := { g.stats with
          generated_blocks := g.stats.generated_blocks + (block_entities.length : Int) }
        current_tetromino_blocks := block_ids
        current_tetromino_joints := joint_entities.map SpawnedJoint.id }
    blocks := block_entities
    joints := joint_entities }

/-- Mirror of the `RigidBodyForces` component: externally applied force
vector and torque. -/
structure RigidBodyForces where
  force : ℚ × ℚ
  torque : ℚ
deriving Repr, DecidableEq

/-- Mirror of the per-block body of the `tetromino_movement` loop. -/
def applyMovement (movement torque : Int) (f : RigidBodyForces) : RigidBodyForces :=
  let f1 := if movement ≠ 0 then
    { f with force := ((movement : ℚ) * MOVEMENT_FORCE, 0) } else f
  if torque ≠ 0 then { f1 with torque := (torque : ℚ) * TORQUE } else f1

/-- Mirror of the `tetromino_movement` system.  The `forces_query` is a
partial map from handles to `RigidBodyForces`; a `none` lookup is the
`Err` case that the loop silently skips.  The active-piece container is a
set, so each handle is visited exactly once and the loop is the pointwise
update below.  The `Game` resource is borrowed immutably (`Res<Game>`) and
returned unchanged. -/
def tetromino_movement (movement torque : Int) (g : Game)
    (forces_query : Nat → Option RigidBodyForces) :
    Game × (Nat → Option RigidBodyForces) :=
  (g, fun e =>
    if e ∈ g.current_tetromino_blocks then
      (forces_query e).map (applyMovement movement torque)
    else forces_query e)

/-- View of one world block for the sleep / row-clearing systems: entity
handle, the physics `RigidBodyActivation::sleeping` flag, and the
rigid-body vertical position in board units. -/
structure BlockView where
  id : Nat
  sleeping : Bool
  y : ℚ
deriving Repr, DecidableEq

/-- Row index of a block, mirror of
`(position.position.translation.y - floor_y).floor() as i32` (exact: the
floor of a rational is an integer, so the cast loses nothing). -/
def blockRow (g : Game) (b : BlockView) : Int := ⌊b.y - g.floor_y⌋

/-- Mirror of the bucket-filling loop of `clear_filled_rows`: walk the
world query, skip non-sleeping blocks, and push each remaining block onto
the bucket of its row when that row lies in `[0, n_rows)`. -/
def fillRows (g : Game) (world : List BlockView)
    (acc : List (List BlockView)) : List (List BlockView) :=
  world.foldl
    (fun acc b =>
      if b.sleeping then
        let row := blockRow g b
        if 0 ≤ row ∧ row < (g.n_rows : Int) then
          acc.set row.toNat (acc.getD row.toNat [] ++ [b])
        else acc
      else acc)
    acc

/-- Mirror of `clear_filled_rows`: bucket sleeping blocks by row, then for
every bucket holding exactly `n_lanes` blocks add `n_lanes` to
`cleared_blocks` and despawn the bucket.  Returns the updated stats and
the despawned blocks in despawn order. -/
def clear_filled_rows (g : Game) (world : List BlockView) :
    Stats × List BlockView :=
  let blocks_per_row := fillRows g world (List.replicate g.n_rows [])
  blocks_per_row.foldl
    (fun acc row_blocks =>
      if row_blocks.length = g.n_lanes then
        ({ acc.1 with cleared_blocks := acc.1.cleared_blocks + (g.n_lanes : Int) },
          acc.2 ++ row_blocks)
      else acc)
    (g.stats, [])

/-- Specification-side bucket: the sleeping blocks of `world` whose row
index is `r`, in query-iteration order. -/
def rowBucket (g : Game) (world : List BlockView) (r : Nat) : List BlockView :=
  world.filter fun b => b.sleeping && (blockRow g b == (r : Int))

/-- Mirror of the `all_blocks_sleeping` query of
`tetromino_sleep_detection`: a handle missing from the world (a despawned
block) yields `unwrap_or(false)`, i.e. counts as not sleeping. -/
def all_blocks_sleeping (g : Game) (world : List BlockView) : Bool :=
  g.current_tetromino_blocks.all fun e =>
    ((world.find? fun b => b.id == e).map BlockView.sleeping).getD false

/-- Outcome of one `tetromino_sleep_detection` run: the updated game
resource, the joint entities despawned, the blocks despawned by
row-clearing, and whether a new piece was spawned. -/
structure SleepResult where
  game : Game
  despawned_joints : List Nat
  removed_blocks : List BlockView
  spawned : Bool
deriving Repr, DecidableEq

/-- Mirror of `tetromino_sleep_detection`: when every active block is
asleep, despawn the piece joints, run `clear_filled_rows`, and spawn a new
piece only when the post-clearing health is positive.  `kind` and `nextId`
stand for the randomness and fresh handles a spawn would consume. -/
def tetromino_sleep_detection (g : Game) (world : List BlockView)
    (kind : TetrominoKind) (nextId : Nat) : SleepResult :=
  if all_blocks_sleeping g world then
    let cleared := clear_filled_rows g world
    let g1 := { g with stats := cleared.1 }
    if cleared.1.health > 0 then
      { game := (spawn_tetromino g1 kind nextId).game
        despawned_joints := g.current_tetromino_joints
        removed_blocks := cleared.2
        spawned := true }
    else
      { game := g1
        despawned_joints := g.current_tetromino_joints
        removed_blocks := cleared.2
        spawned := false }
  else
    { game := g, despawned_joints := [], removed_blocks := [], spawned := false }

/-- View of one block for `block_death_detection`: entity handle and the
vertical component of its render `Transform` translation (pixels). -/
structure DeathBlock where
  id : Nat
  y : ℚ
deriving Repr, DecidableEq

/-- Mirror of `block_death_detection` for the single camera projection
whose lower viewport bound is `bottom` (in pixels): every block whose
transform lies below `bottom - BLOCK_PX_SIZE * 2` marks the active piece
lost when it belongs to it, increments `lost_blocks`, and is despawned.
Returns the updated stats and the despawned handles in iteration order.
This is the loop body for one queried block. -/
def deathStep (outside_limit : ℚ) (g : Game) (acc : Stats × List Nat)
    (b : DeathBlock) : Stats × List Nat :=
  if b.y < outside_limit then
    let s1 := if b.id ∈ g.current_tetromino_blocks then
      { acc.1 with lost_tetromino := true } else acc.1
    ({ s1 with lost_blocks := s1.lost_blocks + 1 }, acc.2 ++ [b.id])
  else acc

/-- Fold of `deathStep` over the block query, mirroring the loop of the system
with the accumulated stats and despawn list. -/
def block_death_detection (bottom : ℚ) (g : Game)
    (blocks : List DeathBlock) : Stats × List Nat :=
  let outside_limit := bottom - BLOCK_PX_SIZE * 2
  blocks.foldl (deathStep outside_limit g) (g.stats, [])

/-- Componentwise ordering on stats: every counter is no smaller and the
lost-tetromino flag never falls back from `true` to `false`. -/
def statsMono (s t : Stats) : Prop :=
  s.generated_blocks ≤ t.generated_blocks ∧
  s.cleared_blocks ≤ t.cleared_blocks ∧
  s.lost_blocks ≤ t.lost_blocks ∧
  s.lost_tetromino ≤ t.lost_tetromino

/-- Block placement exactly as claim C6 words it, to be compared with
`spawn_tetromino`: `lane = lanes/2 - 1 + x` and `row = rows - 1 + y`
(integer division), with center `(left_wall_x + lane + 0.5,
floor_y + row + 0.5)` where `floor_y = -rows/2` and
`left_wall_x = -lanes/2`. -/
def claimedBlockCenter (lanes rows : Nat) (xy : Int × Int) : ℚ × ℚ :=
  let lane : Int := (lanes : Int) / 2 - 1 + xy.1
  let row : Int := (rows : Int) - 1 + xy.2
  (-(lanes : ℚ) / 2 + (lane : ℚ) + 1 / 2, -(rows : ℚ) / 2 + (row : ℚ) + 1 / 2)

/-- Joint anchors exactly as claim C6 words them, to be compared with
`spawn_tetromino`: plus and minus half the inter-block direction vector
of the jointed pair. -/
def claimedJointAnchors (coords : List (Int × Int)) (p : Nat × Nat) :
    (ℚ × ℚ) × (ℚ × ℚ) :=
  let dx : ℚ := (((coords.getD p.2 (0, 0)).1 - (coords.getD p.1 (0, 0)).1 : Int) : ℚ)
  let dy : ℚ := (((coords.getD p.2 (0, 0)).2 - (coords.getD p.1 (0, 0)).2 : Int) : ℚ)
  ((dx / 2, dy / 2), (-(dx / 2), -(dy / 2)))

/-- Setting an index and reading it back through `getD` yields the new
value when the index is in range. -/
theorem set_getD_self {α : Type} (l : List α) (i : Nat) (a d : α)
    (h : i < l.length) : (l.set i a).getD i d = a := by
  rw [List.getD_eq_getElem _ _ (by simpa using h)]
  simp

/-- Setting one index leaves `getD` at any other index unchanged. -/
theorem set_getD_ne {α : Type} (l : List α) (i j : Nat) (a d : α)
    (h : i ≠ j) : (l.set i a).getD j d = l.getD j d := by
  rcases Nat.lt_or_ge j l.length with hj | hj
  · rw [List.getD_eq_getElem _ _ (by simpa using hj), List.getD_eq_getElem _ _ hj]
    simp [List.getElem_set_ne h]
  · rw [List.getD_eq_default _ _ (by simpa using hj), List.getD_eq_default _ _ hj]

/-- Unfolding of `fillRows` on an empty world query. -/
theorem fillRows_nil (g : Game) (acc : List (List BlockView)) :
    fillRows g [] acc = acc := rfl

/-- Unfolding of `fillRows` on one query step. -/
theorem fillRows_cons (g : Game) (b : BlockView) (world : List BlockView)
    (acc : List (List BlockView)) :
    fillRows g (b :: world) acc =
      fillRows g world
        (if b.sleeping then
          if 0 ≤ blockRow g b ∧ blockRow g b < (g.n_rows : Int) then
            acc.set (blockRow g b).toNat (acc.getD (blockRow g b).toNat [] ++ [b])
          else acc
        else acc) := rfl

/-- Bucketing never changes the number of buckets. -/
theorem fillRows_length (g : Game) :
    ∀ (world : List BlockView) (acc : List (List BlockView)),
    (fillRows g world acc).length = acc.length
  | [], _ => rfl
  | b :: world, acc => by
    rw [fillRows_cons, fillRows_length g world]
    split
    · split <;> simp
    · rfl

/-- Content of bucket `r` after the bucket-filling loop: whatever was
already there, followed by the sleeping blocks of the world whose row
index is `r`, in iteration order. -/
theorem fillRows_getD (g : Game) (r : Nat) (hr : r < g.n_rows) :
    ∀ (world : List BlockView) (acc : List (List BlockView)),
    acc.length = g.n_rows →
    (fillRows g world acc).getD r [] =
      acc.getD r [] ++ world.filter fun b => b.sleeping && (blockRow g b == (r : Int))
  | [], acc, _ => by simp [fillRows_nil]
  | b :: world, acc, hacc => by
    rw [fillRows_cons, List.filter_cons]
    by_cases hs : b.sleeping
    · by_cases hin : 0 ≤ blockRow g b ∧ blockRow g b < (g.n_rows : Int)
      · rw [if_pos hs, if_pos hin]
        by_cases heq : (blockRow g b).toNat = r
        · have hrow : blockRow g b = (r : Int) := by omega
          rw [fillRows_getD g r hr world _ (by simpa using hacc)]
          rw [heq, set_getD_self _ _ _ _ (by rw [hacc]; exact hr)]
          simp [hs, hrow]
        · have hrow : ¬(blockRow g b = (r : Int)) := by omega
          rw [fillRows_getD g r hr world _ (by simpa using hacc)]
          rw [set_getD_ne _ _ _ _ _ heq]
          simp [hrow]
      · rw [if_pos hs, if_neg hin]
        have hrow : ¬(blockRow g b = (r : Int)) := by omega
        rw [fillRows_getD g r hr world _ hacc]
        simp [hrow]
    · rw [if_neg hs]
      rw [fillRows_getD g r hr world _ hacc]
      simp [hs]

/-- The bucket vector computed by the loop is, row by row, the
specification-side `rowBucket` filter. -/
theorem fillRows_eq_map (g : Game) (world : List BlockView) :
    fillRows g world (List.replicate g.n_rows []) =
      (List.range g.n_rows).map (rowBucket g world) := by
  apply List.ext_getElem
  · rw [fillRows_length]; simp
  · intro i h1 h2
    have hi : i < g.n_rows := by simpa using h2
    rw [← List.getD_eq_getElem _ ([] : List BlockView) h1,
      ← List.getD_eq_getElem _ ([] : List BlockView) h2]
    rw [fillRows_getD g i hi world (List.replicate g.n_rows []) (by simp)]
    rw [List.getD_eq_getElem _ _ h2]
    simp [rowBucket, List.getD_eq_getD_get?]

/-- Closed form of the clearing fold over the bucket vector: every bucket
holding exactly `n_lanes` blocks contributes `n_lanes` to
`cleared_blocks` and its blocks, in order, to the despawn list. -/
theorem clearFold (g : Game) :
    ∀ (bs : List (List BlockView)) (s : Stats) (ids : List BlockView),
    bs.foldl
      (fun acc row_blocks =>
        if row_blocks.length = g.n_lanes then
          ({ acc.1 with cleared_blocks := acc.1.cleared_blocks + (g.n_lanes : Int) },
            acc.2 ++ row_blocks)
        else acc)
      (s, ids) =
    ({ s with cleared_blocks := s.cleared_blocks +
        (g.n_lanes : Int) * (((bs.filter fun rb => rb.length == g.n_lanes).length : Nat) : Int) },
      ids ++ (bs.filter fun rb => rb.length == g.n_lanes).flatten)
  | [], s, ids => by simp
  | rb :: bs, s, ids => by
    rw [List.foldl_cons, List.filter_cons]
    by_cases h : rb.length = g.n_lanes
    · rw [if_pos h, clearFold g bs]
      simp only [h, beq_self_eq_true, if_pos, List.flatten_cons, List.length_cons,
        Prod.mk.injEq]
      constructor
      · congr 1
        push_cast
        ring
      · simp [List.append_assoc]
    · rw [if_neg h, clearFold g bs]
      have hb : (rb.length == g.n_lanes) = false := by simpa using h
      rw [hb]
      simp

/-- Full characterization of `clear_filled_rows`: the cleared counter
grows by `n_lanes` per full row, the despawned blocks are exactly the
blocks of the full buckets, and no other stats field moves. -/
theorem clear_filled_rows_eq (g : Game) (world : List BlockView) :
    clear_filled_rows g world =
      ({ g.stats with cleared_blocks := g.stats.cleared_blocks +
          (g.n_lanes : Int) * ((((List.range g.n_rows).filter fun r =>
            (rowBucket g world r).length == g.n_lanes).length : Nat) : Int) },
        (((List.range g.n_rows).filter fun r =>
          (rowBucket g world r).length == g.n_lanes).map (rowBucket g world)).flatten) := by
  unfold clear_filled_rows
  rw [fillRows_eq_map, clearFold]
  rw [List.filter_map]
  have hc : ((fun rb : List BlockView => rb.length == g.n_lanes) ∘ rowBucket g world) =
      fun r => (rowBucket g world r).length == g.n_lanes := rfl
  rw [hc]
  simp only [List.length_map, List.nil_append]

/-- Claim C1: `health` is exactly 0 whenever the tetromino was lost; with
nothing cleared it is 0 when blocks were lost and 1 when none were; and
otherwise it is exactly `1 - lost_blocks / cleared_blocks`, with no
clamping at 0. -/
theorem health_spec (s : Stats) :
    (s.lost_tetromino = true → s.health = 0) ∧
    (s.lost_tetromino = false → s.cleared_blocks = 0 → 0 < s.lost_blocks →
      s.health = 0) ∧
    (s.lost_tetromino = false → s.cleared_blocks = 0 → s.lost_blocks = 0 →
      s.health = 1) ∧
    (s.lost_tetromino = false → s.cleared_blocks ≠ 0 →
      s.health = 1 - (s.lost_blocks : ℚ) / (s.cleared_blocks : ℚ)) := by
  unfold Stats.health
  refine ⟨?_, ?_, ?_, ?_⟩ <;> intros <;> simp_all

/-- Witness for C1, including the spec example `cleared = 40, lost = 10 ⇒
0.75` and an unclamped negative value. -/
theorem health_spec_witness :
    Stats.health ⟨0, 40, 10, false⟩ = 3 / 4 ∧
    Stats.health ⟨0, 10, 40, false⟩ = -3 ∧
    Stats.health ⟨0, 40, 10, true⟩ = 0 ∧
    Stats.health ⟨0, 0, 0, false⟩ = 1 ∧
    Stats.health ⟨0, 0, 5, false⟩ = 0 := by
  have h1 := (health_spec ⟨0, 40, 10, false⟩).2.2.2 rfl (by decide)
  have h2 := (health_spec ⟨0, 10, 40, false⟩).2.2.2 rfl (by decide)
  have h3 := (health_spec ⟨0, 40, 10, true⟩).1 rfl
  have h4 := (health_spec ⟨0, 0, 0, false⟩).2.2.1 rfl rfl rfl
  have h5 := (health_spec ⟨0, 0, 5, false⟩).2.1 rfl rfl (by decide)
  refine ⟨?_, ?_, h3, h4, h5⟩
  · rw [h1]; norm_num
  · rw [h2]; norm_num

/-- Claim C5: the layout catalog is exactly the fixed table of §4.1 —
four block offsets per kind, the listed joint pairs (including the
redundant `1-0` joint of the O piece), and every joint index in `[0, 4)`. -/
theorem layout_catalog :
    (TetrominoKind.I.layout =
      ⟨[(1, 1), (1, 0), (1, -1), (1, -2)], [(0, 1), (1, 2), (2, 3)]⟩ ∧
     TetrominoKind.O.layout =
      ⟨[(0, 0), (1, 0), (1, -1), (0, -1)], [(0, 1), (1, 2), (2, 3), (1, 0)]⟩ ∧
     TetrominoKind.T.layout =
      ⟨[(0, 0), (1, 0), (2, 0), (1, -1)], [(0, 1), (1, 2), (1, 3)]⟩ ∧
     TetrominoKind.J.layout =
      ⟨[(1, 0), (1, -1), (1, -2), (0, -2)], [(0, 1), (1, 2), (2, 3)]⟩ ∧
     TetrominoKind.L.layout =
      ⟨[(1, 0), (1, -1), (1, -2), (2, -2)], [(0, 1), (1, 2), (2, 3)]⟩ ∧
     TetrominoKind.S.layout =
      ⟨[(0, -1), (1, -1), (1, 0), (2, 0)], [(0, 1), (1, 2), (2, 3)]⟩ ∧
     TetrominoKind.Z.layout =
      ⟨[(0, 0), (1, 0), (1, -1), (2, -1)], [(0, 1), (1, 2), (2, 3)]⟩) ∧
    (∀ k : TetrominoKind, k.layout.coords.length = 4) ∧
    (∀ k : TetrominoKind, ∀ p ∈ k.layout.joints, p.1 < 4 ∧ p.2 < 4) := by
  decide

/-- Closed form of the off-board fold: each block below the limit adds one
to `lost_blocks` and its handle to the despawn list, and the
lost-tetromino flag absorbs membership of any such block in the active
piece. -/
theorem deathFold (bottom : ℚ) (g : Game) :
    ∀ (blocks : List DeathBlock) (s : Stats) (ids : List Nat),
    blocks.foldl (deathStep (bottom - BLOCK_PX_SIZE * 2) g) (s, ids) =
    ({ s with
        lost_blocks := s.lost_blocks +
          (((blocks.filter fun b =>
            decide (b.y < bottom - BLOCK_PX_SIZE * 2)).length : Nat) : Int)
        lost_tetromino := s.lost_tetromino ||
          blocks.any fun b => decide (b.y < bottom - BLOCK_PX_SIZE * 2) &&
            decide (b.id ∈ g.current_tetromino_blocks) },
      ids ++ (blocks.filter fun b =>
        decide (b.y < bottom - BLOCK_PX_SIZE * 2)).map DeathBlock.id)
  | [], s, ids => by simp
  | b :: blocks, s, ids => by
    rw [List.foldl_cons, List.filter_cons, List.any_cons]
    by_cases hy : b.y < bottom - BLOCK_PX_SIZE * 2
    · have hd : (decide (b.y < bottom - BLOCK_PX_SIZE * 2)) = true := decide_eq_true hy
      by_cases hm : b.id ∈ g.current_tetromino_blocks
      · have hdm : (decide (b.id ∈ g.current_tetromino_blocks)) = true := decide_eq_true hm
        have hstep : deathStep (bottom - BLOCK_PX_SIZE * 2) g (s, ids) b =
            ({ s with lost_blocks := s.lost_blocks + 1, lost_tetromino := true },
              ids ++ [b.id]) := by
          simp [deathStep, hy, hm]
        rw [hstep, deathFold bottom g blocks, hd, hdm]
        simp only [Prod.mk.injEq, Stats.mk.injEq, Bool.true_and, Bool.true_or,
          Bool.or_true, List.length_cons, List.map_cons, if_pos]
        refine ⟨⟨?_, ?_, ?_, ?_⟩, ?_⟩ <;>
          first
            | rfl
            | trivial
            | (push_cast; ring1)
            | (rw [List.append_assoc]; rfl)
      · have hdm : (decide (b.id ∈ g.current_tetromino_blocks)) = false :=
          decide_eq_false hm
        have hstep : deathStep (bottom - BLOCK_PX_SIZE * 2) g (s, ids) b =
            ({ s with lost_blocks := s.lost_blocks + 1 }, ids ++ [b.id]) := by
          simp [deathStep, hy, hm]
        rw [hstep, deathFold bottom g blocks, hd, hdm]
        simp only [Prod.mk.injEq, Stats.mk.injEq, Bool.true_and, Bool.and_false,
          Bool.false_or, List.length_cons, List.map_cons, if_pos]
        refine ⟨⟨?_, ?_, ?_, ?_⟩, ?_⟩ <;>
          first
            | rfl
            | trivial
            | (push_cast; ring1)
            | (rw [List.append_assoc]; rfl)
    · have hd : (decide (b.y < bottom - BLOCK_PX_SIZE * 2)) = false := decide_eq_false hy
      have hstep : deathStep (bottom - BLOCK_PX_SIZE * 2) g (s, ids) b = (s, ids) := by
        simp [deathStep, hy]
      rw [hstep, deathFold bottom g blocks, hd]
      simp

/-- Full characterization of `block_death_detection`. -/
theorem block_death_eq (bottom : ℚ) (g : Game) (blocks : List DeathBlock) :
    block_death_detection bottom g blocks =
    ({ g.stats with
        lost_blocks := g.stats.lost_blocks +
          (((blocks.filter fun b =>
            decide (b.y < bottom - BLOCK_PX_SIZE * 2)).length : Nat) : Int)
        lost_tetromino := g.stats.lost_tetromino ||
          blocks.any fun b => decide (b.y < bottom - BLOCK_PX_SIZE * 2) &&
            decide (b.id ∈ g.current_tetromino_blocks) },
      (blocks.filter fun b =>
        decide (b.y < bottom - BLOCK_PX_SIZE * 2)).map DeathBlock.id) := by
  have h := deathFold bottom g blocks g.stats []
  simp only [List.nil_append] at h
  exact h

/-- Every layout has exactly four coordinate offsets. -/
theorem coords_length (k : TetrominoKind) : k.layout.coords.length = 4 := by
  cases k <;> rfl

/-- Reading an in-range index of a mapped enumeration. -/
theorem enum_map_getD {α β : Type} (l : List α) (f : Nat × α → β) (i : Nat)
    (d : β) (d' : α) (h : i < l.length) :
    (l.enum.map f).getD i d = f (i, l.getD i d') := by
  rw [List.getD_eq_getElem _ _ (by simpa using h), List.getD_eq_getElem _ _ h]
  simp [List.getElem_enum]

/-- Reading block `i` of a freshly spawned piece: it is the block spawned
at the lane/row computed from layout offset `i`. -/
theorem spawn_blocks_getD (g : Game) (kind : TetrominoKind) (nextId : Nat)
    (i : Nat) (hi : i < 4) :
    (spawn_tetromino g kind nextId).blocks.getD i ⟨0, 0, 0⟩ =
      spawn_block g (nextId + i)
        ((g.n_lanes : Int) / 2 - 1 + (kind.layout.coords.getD i (0, 0)).1)
        ((g.n_rows : Int) - 1 + (kind.layout.coords.getD i (0, 0)).2) := by
  have h : i < kind.layout.coords.length := by rw [coords_length]; exact hi
  simp only [spawn_tetromino]
  rw [enum_map_getD _ _ _ _ (0, 0) h]

/-- Stats effect of a spawn: `generated_blocks` grows by exactly 4 and
nothing else moves. -/
theorem spawn_stats (g : Game) (kind : TetrominoKind) (nextId : Nat) :
    (spawn_tetromino g kind nextId).game.stats =
      { g.stats with generated_blocks := g.stats.generated_blocks + 4 } := by
  cases kind <;> rfl

/-- Reflexivity of the stats ordering. -/
theorem statsMono_refl (s : Stats) : statsMono s s :=
  ⟨le_refl _, le_refl _, le_refl _, le_refl _⟩

/-- Transitivity of the stats ordering. -/
theorem statsMono_trans {a b c : Stats} (h1 : statsMono a b)
    (h2 : statsMono b c) : statsMono a c :=
  ⟨le_trans h1.1 h2.1, le_trans h1.2.1 h2.2.1, le_trans h1.2.2.1 h2.2.2.1,
    le_trans h1.2.2.2 h2.2.2.2⟩

/-- Row clearing only moves stats upward. -/
theorem clear_stats_mono (g : Game) (world : List BlockView) :
    statsMono g.stats (clear_filled_rows g world).1 := by
  rw [clear_filled_rows_eq]
  refine ⟨le_refl _, ?_, le_refl _, le_refl _⟩
  have h0 : (0 : Int) ≤ (g.n_lanes : Int) *
      ((((List.range g.n_rows).filter fun r =>
        (rowBucket g world r).length == g.n_lanes).length : Nat) : Int) := by
    positivity
  exact le_add_of_nonneg_right h0

/-- Off-board detection only moves stats upward. -/
theorem death_stats_mono (bottom : ℚ) (g : Game) (blocks : List DeathBlock) :
    statsMono g.stats (block_death_detection bottom g blocks).1 := by
  rw [block_death_eq]
  refine ⟨le_refl _, le_refl _, ?_, ?_⟩
  · have h0 : (0 : Int) ≤ (((blocks.filter fun b =>
        decide (b.y < bottom - BLOCK_PX_SIZE * 2)).length : Nat) : Int) :=
      Int.natCast_nonneg _
    exact le_add_of_nonneg_right h0
  · cases h : g.stats.lost_tetromino <;> simp [h, le_refl]

/-- Spawning only moves stats upward. -/
theorem spawn_stats_mono (g : Game) (kind : TetrominoKind) (nextId : Nat) :
    statsMono g.stats (spawn_tetromino g kind nextId).game.stats := by
  rw [spawn_stats]
  exact ⟨le_add_of_nonneg_right (by norm_num), le_refl _, le_refl _, le_refl _⟩

/-- Sleep detection (with its row clearing and optional respawn) only
moves stats upward. -/
theorem sleep_stats_mono (g : Game) (world : List BlockView)
    (kind : TetrominoKind) (nextId : Nat) :
    statsMono g.stats (tetromino_sleep_detection g world kind nextId).game.stats := by
  simp only [tetromino_sleep_detection]
  by_cases hall : all_blocks_sleeping g world = true
  · rw [if_pos hall]
    by_cases hh : (clear_filled_rows g world).1.health > 0
    · rw [if_pos hh]
      exact statsMono_trans (clear_stats_mono g world)
        (spawn_stats_mono { g with stats := (clear_filled_rows g world).1 } kind nextId)
    · rw [if_neg hh]
      exact clear_stats_mono g world
  · rw [if_neg hall]
    exact statsMono_refl g.stats

/-- Claim C2: in one row-clearing pass only blocks reported asleep are
bucketed, by row `⌊y - floor_y⌋`, with rows outside `[0, n_rows)` ignored;
every bucket of size exactly `n_lanes` adds `n_lanes` to `cleared_blocks`
and has every one of its blocks despawned unconditionally, buckets of any
other size are untouched, all full rows clear in the same pass, and no
other stats field moves. -/
theorem clear_filled_rows_spec (g : Game) (world : List BlockView) :
    (clear_filled_rows g world).1.cleared_blocks =
      g.stats.cleared_blocks + (g.n_lanes : Int) *
        ((((List.range g.n_rows).filter fun r =>
          (rowBucket g world r).length == g.n_lanes).length : Nat) : Int) ∧
    (clear_filled_rows g world).2 =
      (((List.range g.n_rows).filter fun r =>
        (rowBucket g world r).length == g.n_lanes).map (rowBucket g world)).flatten ∧
    (clear_filled_rows g world).1.generated_blocks = g.stats.generated_blocks ∧
    (clear_filled_rows g world).1.lost_blocks = g.stats.lost_blocks ∧
    (clear_filled_rows g world).1.lost_tetromino = g.stats.lost_tetromino := by
  rw [clear_filled_rows_eq]
  exact ⟨rfl, rfl, rfl, rfl, rfl⟩

/-- Claim C7: every block below the viewport bottom minus two block
heights adds exactly one to `lost_blocks` and is despawned; the
lost-tetromino flag becomes true exactly when it already was or some such
block belongs to the active piece; the other counters are untouched. -/
theorem block_death_detection_spec (bottom : ℚ) (g : Game)
    (blocks : List DeathBlock) :
    (block_death_detection bottom g blocks).1.lost_blocks =
      g.stats.lost_blocks + (((blocks.filter fun b =>
        decide (b.y < bottom - BLOCK_PX_SIZE * 2)).length : Nat) : Int) ∧
    (block_death_detection bottom g blocks).2 =
      (blocks.filter fun b =>
        decide (b.y < bottom - BLOCK_PX_SIZE * 2)).map DeathBlock.id ∧
    (block_death_detection bottom g blocks).1.lost_tetromino =
      (g.stats.lost_tetromino || blocks.any fun b =>
        decide (b.y < bottom - BLOCK_PX_SIZE * 2) &&
          decide (b.id ∈ g.current_tetromino_blocks)) ∧
    (block_death_detection bottom g blocks).1.generated_blocks =
      g.stats.generated_blocks ∧
    (block_death_detection bottom g blocks).1.cleared_blocks =
      g.stats.cleared_blocks := by
  rw [block_death_eq]
  exact ⟨rfl, rfl, rfl, rfl, rfl⟩

/-- Claim C3: when every active block is asleep the settle transition
despawns the piece joints, runs row clearing, and spawns a new piece if
and only if the post-clearing health is positive; in particular a true
`lost_tetromino` flag (health 0) suppresses the spawn. -/
theorem sleep_spawn_gate (g : Game) (world : List BlockView)
    (kind : TetrominoKind) (nextId : Nat)
    (hall : all_blocks_sleeping g world = true) :
    ((tetromino_sleep_detection g world kind nextId).spawned = true ↔
      0 < (clear_filled_rows g world).1.health) ∧
    (tetromino_sleep_detection g world kind nextId).despawned_joints =
      g.current_tetromino_joints ∧
    (tetromino_sleep_detection g world kind nextId).removed_blocks =
      (clear_filled_rows g world).2 ∧
    (g.stats.lost_tetromino = true →
      (tetromino_sleep_detection g world kind nextId).spawned = false) := by
  simp only [tetromino_sleep_detection, hall, eq_self_iff_true, if_true]
  by_cases hh : 0 < (clear_filled_rows g world).1.health
  · rw [if_pos hh]
    refine ⟨⟨fun _ => hh, fun _ => rfl⟩, rfl, rfl, fun hlost => ?_⟩
    exfalso
    have hlt : (clear_filled_rows g world).1.lost_tetromino = true := by
      rw [clear_filled_rows_eq]; exact hlost
    have hz : (clear_filled_rows g world).1.health = 0 := by
      unfold Stats.health
      rw [hlt]
      simp
    rw [hz] at hh
    exact lt_irrefl 0 hh
  · rw [if_neg hh]
    exact ⟨⟨fun h => (Bool.false_ne_true h).elim, fun h => absurd h hh⟩,
      rfl, rfl, fun _ => rfl⟩

/-- Witness for C3: a single asleep active block settles and, with healthy
counters, a new piece is spawned. -/
theorem sleep_spawn_gate_witness :
    (tetromino_sleep_detection ⟨10, 20, ⟨4, 0, 0, false⟩, [5], [9]⟩
      [⟨5, true, 0⟩] TetrominoKind.O 100).despawned_joints = [9] :=
  (sleep_spawn_gate ⟨10, 20, ⟨4, 0, 0, false⟩, [5], [9]⟩
    [⟨5, true, 0⟩] TetrominoKind.O 100 (by decide)).2.1

/-- Claim C10: a non-empty active set holding a handle that the world
query cannot resolve counts as not sleeping, so the settle transition
does not fire at all on that frame. -/
theorem sleep_dangling (g : Game) (world : List BlockView)
    (kind : TetrominoKind) (nextId : Nat) (e : Nat)
    (he : e ∈ g.current_tetromino_blocks)
    (hf : (world.find? fun b => b.id == e) = none) :
    all_blocks_sleeping g world = false ∧
    tetromino_sleep_detection g world kind nextId =
      { game := g, despawned_joints := [], removed_blocks := [],
        spawned := false } := by
  have hfalse : all_blocks_sleeping g world = false := by
    apply Bool.eq_false_iff.mpr
    intro hall
    simp only [all_blocks_sleeping, List.all_eq_true] at hall
    have hcontra := hall e he
    rw [hf] at hcontra
    simp at hcontra
  refine ⟨hfalse, ?_⟩
  simp only [tetromino_sleep_detection, hfalse]
  simp

/-- Witness for C10: an active block whose entity is absent from the
world query blocks the settle transition. -/
theorem sleep_dangling_witness :
    all_blocks_sleeping ⟨10, 20, ⟨4, 0, 0, false⟩, [3], [9]⟩ [] = false ∧
    tetromino_sleep_detection ⟨10, 20, ⟨4, 0, 0, false⟩, [3], [9]⟩ []
      TetrominoKind.I 50 =
      { game := ⟨10, 20, ⟨4, 0, 0, false⟩, [3], [9]⟩, despawned_joints := [],
        removed_blocks := [], spawned := false } :=
  sleep_dangling ⟨10, 20, ⟨4, 0, 0, false⟩, [3], [9]⟩ [] TetrominoKind.I 50 3
    (by decide) rfl

/-- Counterexample to claim C4: with an empty active block set the sleep
check is vacuously true and the settle transition does fire — the
recorded joint is despawned and a fresh piece is spawned. -/
theorem sleep_empty_guard_cex :
    (tetromino_sleep_detection ⟨10, 20, ⟨0, 0, 0, false⟩, [], [7]⟩ []
      TetrominoKind.I 0).spawned = true ∧
    (tetromino_sleep_detection ⟨10, 20, ⟨0, 0, 0, false⟩, [], [7]⟩ []
      TetrominoKind.I 0).despawned_joints = [7] := by
  constructor
  · decide
  · decide

/-- Claim C4 (amended): an empty active block set is vacuously
all-sleeping and the settle transition fires rather than being guarded:
the recorded joints are despawned, row clearing runs, and a new piece is
spawned exactly when the post-clearing health is positive. -/
theorem sleep_empty_settles (g : Game) (world : List BlockView)
    (kind : TetrominoKind) (nextId : Nat)
    (he : g.current_tetromino_blocks = []) :
    all_blocks_sleeping g world = true ∧
    (tetromino_sleep_detection g world kind nextId).despawned_joints =
      g.current_tetromino_joints ∧
    (tetromino_sleep_detection g world kind nextId).removed_blocks =
      (clear_filled_rows g world).2 ∧
    ((tetromino_sleep_detection g world kind nextId).spawned = true ↔
      0 < (clear_filled_rows g world).1.health) := by
  have hall : all_blocks_sleeping g world = true := by
    simp [all_blocks_sleeping, he]
  refine ⟨hall, ?_⟩
  simp only [tetromino_sleep_detection, hall, eq_self_iff_true, if_true]
  by_cases hh : 0 < (clear_filled_rows g world).1.health
  · rw [if_pos hh]
    exact ⟨rfl, rfl, fun _ => hh, fun _ => rfl⟩
  · rw [if_neg hh]
    exact ⟨rfl, rfl, fun h => (Bool.false_ne_true h).elim, fun h => absurd h hh⟩

/-- Witness for the amended C4. -/
theorem sleep_empty_settles_witness :
    (tetromino_sleep_detection ⟨10, 20, ⟨0, 0, 0, false⟩, [], [7]⟩ []
      TetrominoKind.O 0).despawned_joints = [7] :=
  (sleep_empty_settles ⟨10, 20, ⟨0, 0, 0, false⟩, [], [7]⟩ []
    TetrominoKind.O 0 rfl).2.1

/-- Reading joint `k` of a freshly spawned piece. -/
theorem spawn_joints_getD (g : Game) (kind : TetrominoKind) (nextId : Nat)
    (k : Nat) (hk : k < kind.layout.joints.length) :
    (spawn_tetromino g kind nextId).joints.getD k ⟨0, (0, 0), (0, 0), 0, 0⟩ =
      { id := nextId + kind.layout.coords.length + k
        anchor1 :=
          ((((kind.layout.coords.getD (kind.layout.joints.getD k (0, 0)).2 (0, 0)).1 : ℚ) -
            ((kind.layout.coords.getD (kind.layout.joints.getD k (0, 0)).1 (0, 0)).1 : ℚ)) * (1 / 2),
          (((kind.layout.coords.getD (kind.layout.joints.getD k (0, 0)).2 (0, 0)).2 : ℚ) -
            ((kind.layout.coords.getD (kind.layout.joints.getD k (0, 0)).1 (0, 0)).2 : ℚ)) * (1 / 2))
        anchor2 :=
          ((((kind.layout.coords.getD (kind.layout.joints.getD k (0, 0)).2 (0, 0)).1 : ℚ) -
            ((kind.layout.coords.getD (kind.layout.joints.getD k (0, 0)).1 (0, 0)).1 : ℚ)) * (-(1 / 2)),
          (((kind.layout.coords.getD (kind.layout.joints.getD k (0, 0)).2 (0, 0)).2 : ℚ) -
            ((kind.layout.coords.getD (kind.layout.joints.getD k (0, 0)).1 (0, 0)).2 : ℚ)) * (-(1 / 2)))
        body1 := ((spawn_tetromino g kind nextId).blocks.map SpawnedBlock.id).getD
          (kind.layout.joints.getD k (0, 0)).1 0
        body2 := ((spawn_tetromino g kind nextId).blocks.map SpawnedBlock.id).getD
          (kind.layout.joints.getD k (0, 0)).2 0 } := by
  simp only [spawn_tetromino]
  rw [enum_map_getD _ _ _ _ (0, 0) hk]

/-- Claim C6: spawning places the four layout blocks at
`lane = lanes/2 - 1 + x`, `row = rows - 1 + y` with centers
`(left_wall_x + lane + 0.5, floor_y + row + 0.5)`, increments
`generated_blocks` by exactly 4 and nothing else, creates one joint per
layout pair with anchors plus and minus half the inter-block direction
vector, and replaces the active block set and joint list wholesale. -/
theorem spawn_tetromino_spec (g : Game) (kind : TetrominoKind) (nextId : Nat) :
    (spawn_tetromino g kind nextId).blocks.length = 4 ∧
    (spawn_tetromino g kind nextId).game.stats.generated_blocks =
      g.stats.generated_blocks + 4 ∧
    (spawn_tetromino g kind nextId).game.stats.cleared_blocks =
      g.stats.cleared_blocks ∧
    (spawn_tetromino g kind nextId).game.stats.lost_blocks =
      g.stats.lost_blocks ∧
    (spawn_tetromino g kind nextId).game.stats.lost_tetromino =
      g.stats.lost_tetromino ∧
    (spawn_tetromino g kind nextId).game.current_tetromino_blocks =
      (spawn_tetromino g kind nextId).blocks.map SpawnedBlock.id ∧
    (spawn_tetromino g kind nextId).game.current_tetromino_joints =
      (spawn_tetromino g kind nextId).joints.map SpawnedJoint.id ∧
    (spawn_tetromino g kind nextId).joints.length =
      kind.layout.joints.length ∧
    (∀ i, i < 4 →
      ((spawn_tetromino g kind nextId).blocks.getD i ⟨0, 0, 0⟩).id = nextId + i ∧
      (((spawn_tetromino g kind nextId).blocks.getD i ⟨0, 0, 0⟩).x,
       ((spawn_tetromino g kind nextId).blocks.getD i ⟨0, 0, 0⟩).y) =
        claimedBlockCenter g.n_lanes g.n_rows (kind.layout.coords.getD i (0, 0))) ∧
    (∀ k, k < kind.layout.joints.length →
      (((spawn_tetromino g kind nextId).joints.getD k ⟨0, (0, 0), (0, 0), 0, 0⟩).anchor1,
       ((spawn_tetromino g kind nextId).joints.getD k ⟨0, (0, 0), (0, 0), 0, 0⟩).anchor2) =
        claimedJointAnchors kind.layout.coords (kind.layout.joints.getD k (0, 0)) ∧
      ((spawn_tetromino g kind nextId).joints.getD k ⟨0, (0, 0), (0, 0), 0, 0⟩).body1 =
        (spawn_tetromino g kind nextId).game.current_tetromino_blocks.getD
          (kind.layout.joints.getD k (0, 0)).1 0 ∧
      ((spawn_tetromino g kind nextId).joints.getD k ⟨0, (0, 0), (0, 0), 0, 0⟩).body2 =
        (spawn_tetromino g kind nextId).game.current_tetromino_blocks.getD
          (kind.layout.joints.getD k (0, 0)).2 0) := by
  refine ⟨?_, ?_, ?_, ?_, ?_, rfl, rfl, ?_, ?_, ?_⟩
  · simp [spawn_tetromino, coords_length]
  · rw [spawn_stats]
  · rw [spawn_stats]
  · rw [spawn_stats]
  · rw [spawn_stats]
  · simp [spawn_tetromino]
  · intro i hi
    rw [spawn_blocks_getD g kind nextId i hi]
    refine ⟨rfl, ?_⟩
    simp only [spawn_block, claimedBlockCenter, Game.left_wall_x, Game.floor_y,
      Prod.mk.injEq]
    refine ⟨?_, ?_⟩ <;> (push_cast; ring)
  · intro k hk
    rw [spawn_joints_getD g kind nextId k hk]
    refine ⟨?_, rfl, rfl⟩
    simp only [claimedJointAnchors, Prod.mk.injEq]
    refine ⟨⟨?_, ?_⟩, ?_, ?_⟩ <;> (push_cast; ring)

/-- Witness for C6 at the default board, kind O, block 0 and the O
redundant fourth joint of the O piece. -/
theorem spawn_tetromino_spec_witness :
    (spawn_tetromino ⟨10, 20, ⟨0, 0, 0, false⟩, [], []⟩ TetrominoKind.O
      0).game.stats.generated_blocks = 4 ∧
    (((spawn_tetromino ⟨10, 20, ⟨0, 0, 0, false⟩, [], []⟩ TetrominoKind.O
      0).blocks.getD 0 ⟨0, 0, 0⟩).x,
     ((spawn_tetromino ⟨10, 20, ⟨0, 0, 0, false⟩, [], []⟩ TetrominoKind.O
      0).blocks.getD 0 ⟨0, 0, 0⟩).y) =
      claimedBlockCenter 10 20 (TetrominoKind.O.layout.coords.getD 0 (0, 0)) ∧
    (((spawn_tetromino ⟨10, 20, ⟨0, 0, 0, false⟩, [], []⟩ TetrominoKind.O
      0).joints.getD 3 ⟨0, (0, 0), (0, 0), 0, 0⟩).anchor1,
     ((spawn_tetromino ⟨10, 20, ⟨0, 0, 0, false⟩, [], []⟩ TetrominoKind.O
      0).joints.getD 3 ⟨0, (0, 0), (0, 0), 0, 0⟩).anchor2) =
      claimedJointAnchors TetrominoKind.O.layout.coords
        (TetrominoKind.O.layout.joints.getD 3 (0, 0)) := by
  have h := spawn_tetromino_spec ⟨10, 20, ⟨0, 0, 0, false⟩, [], []⟩
    TetrominoKind.O 0
  exact ⟨h.2.1, (h.2.2.2.2.2.2.2.2.1 0 (by norm_num)).2,
    (h.2.2.2.2.2.2.2.2.2 3 (by decide)).1⟩

/-- Claim C8: across spawning, row clearing, off-board detection, the
movement controller and sleep detection, no stats counter ever decreases
and a true lost-tetromino flag is never reset. -/
theorem stats_monotone :
    (∀ (g : Game) (kind : TetrominoKind) (nextId : Nat),
      statsMono g.stats (spawn_tetromino g kind nextId).game.stats) ∧
    (∀ (g : Game) (world : List BlockView),
      statsMono g.stats (clear_filled_rows g world).1) ∧
    (∀ (bottom : ℚ) (g : Game) (blocks : List DeathBlock),
      statsMono g.stats (block_death_detection bottom g blocks).1) ∧
    (∀ (movement torque : Int) (g : Game)
      (fq : Nat → Option RigidBodyForces),
      (tetromino_movement movement torque g fq).1.stats = g.stats) ∧
    (∀ (g : Game) (world : List BlockView) (kind : TetrominoKind)
      (nextId : Nat),
      statsMono g.stats (tetromino_sleep_detection g world kind nextId).game.stats) :=
  ⟨spawn_stats_mono, clear_stats_mono, death_stats_mono,
    fun _ _ _ _ => rfl, sleep_stats_mono⟩

/-- Claim C9: each frame, for each active block whose handle resolves, a
nonzero movement axis overwrites its force with
`(movement * MOVEMENT_FORCE, 0)` and a nonzero torque axis overwrites its
torque with `torque * TORQUE`; a zero axis leaves the component
untouched, unresolvable handles are skipped, and nothing else changes. -/
theorem tetromino_movement_spec (movement torque : Int) (g : Game)
    (fq : Nat → Option RigidBodyForces) :
    (tetromino_movement movement torque g fq).1 = g ∧
    (∀ e, e ∉ g.current_tetromino_blocks →
      (tetromino_movement movement torque g fq).2 e = fq e) ∧
    (∀ e, e ∈ g.current_tetromino_blocks → fq e = none →
      (tetromino_movement movement torque g fq).2 e = none) ∧
    (∀ e F, e ∈ g.current_tetromino_blocks → fq e = some F →
      (tetromino_movement movement torque g fq).2 e = some
        { force := if movement ≠ 0 then ((movement : ℚ) * MOVEMENT_FORCE, 0)
            else F.force
          torque := if torque ≠ 0 then (torque : ℚ) * TORQUE
            else F.torque }) := by
  refine ⟨rfl, ?_, ?_, ?_⟩
  · intro e he
    simp [tetromino_movement, he]
  · intro e he hf
    simp [tetromino_movement, he, hf]
  · intro e F he hf
    by_cases hmv : movement = 0 <;> by_cases htq : torque = 0 <;>
      simp [tetromino_movement, applyMovement, he, hf, hmv, htq]

/-- Witness for C9: with rightward movement and no torque, the
force of a resolvable active block becomes `(20, 0)` and its torque is untouched. -/
theorem tetromino_movement_spec_witness :
    (tetromino_movement 1 0 ⟨10, 20, ⟨0, 0, 0, false⟩, [3], []⟩
      (fun e => if e = 3 then some ⟨(5, 7), 9⟩ else none)).2 3 =
      some ⟨((20 : ℚ), 0), 9⟩ := by
  have h := (tetromino_movement_spec 1 0 ⟨10, 20, ⟨0, 0, 0, false⟩, [3], []⟩
    (fun e => if e = 3 then some ⟨(5, 7), 9⟩ else none)).2.2.2 3 ⟨(5, 7), 9⟩
    (by decide) (by simp)
  rw [h]
  norm_num [MOVEMENT_FORCE]

end RealisticTetris
